import Mathlib

/-!
Verification development for the edge-docking window manager of the
Side-Markdown Electron application.

The definitions below are a shallow embedding of the TypeScript source:

* `sanitizeSettings`, `mergeSettings`, `getDefaultSettings` embed the
  settings module (`electron/settings.ts`);
* `calcDockTargets`, `startDocking`, `stopDocking`, the poll-tick body and
  the `move`/`resize`/`blur`/`focus` window-event handlers embed the dock
  state machine of `electron/main.ts` (lines 1295–1739 and the IPC handlers
  `window:dock`, `window:setDockPinned`, `window:setAlwaysOnTop`,
  `settings:update`).

Modelling conventions:

* JavaScript numbers that the dock code manipulates are integers in
  practice (Electron reports integral bounds, settings are clamped
  integers); they are embedded as `Int`, and `Math.round` on an integer is
  the identity, so the `Math.round(...)` wrappers around `setBounds`
  arguments disappear.
* The module-level mutable variables of `main.ts` (`dockMode`,
  `dockPinned`, `dockDisplayId`, `dockFullBounds`, `dockShown`,
  `dockPrevMinSize`, `dockInternalOps`, `dockLastHoverAt`,
  `dockHideRequestedAt`, `windowAlwaysOnTop`, `appSettings`,
  `dockSettingsWriteTimer`, `dockTimer`) together with the observable
  state of the single `mainWindow` (its bounds, minimum size,
  always-on-top flag, and whether it is still alive) form one record
  `MainState`; every handler is a function `... → MainState → MainState`.
* The display environment is a single `Display`: `screen.getDisplayMatching`
  returns it and `screen.getAllDisplays()` contains exactly it, which is
  the single-monitor instantiation of the code's display lookups.
* `win.setBounds` applies the rectangle synchronously (as Electron does);
  the `move`/`resize` events that echo it arrive later and are modelled as
  separate events whose new bounds are part of the event.  The deferred
  `setTimeout(…, 0)` decrement of `dockInternalOps` is the separate event
  `opTimeout`.
-/

namespace SideMarkdown

/-- `{x, y, width, height}` rectangle (Electron.Rectangle). -/
structure Rect where
  x : Int
  y : Int
  width : Int
  height : Int
deriving DecidableEq, Repr

/-- A cursor point as returned by `screen.getCursorScreenPoint()`. -/
structure Point where
  x : Int
  y : Int
deriving DecidableEq, Repr

/-- A display: its id and its work area (`display.workArea`). -/
structure Display where
  id : Int
  workArea : Rect
deriving DecidableEq, Repr

/-- `ThemeMode = 'system' | 'dark' | 'light'` (shared.ts). -/
inductive ThemeMode where
  | system | dark | light
deriving DecidableEq, Repr

/-- `Locale = 'zh-CN' | 'zh-TW' | 'en' | 'ja' | 'ko'` (shared.ts). -/
inductive Locale where
  | zhCN | zhTW | en | ja | ko
deriving DecidableEq, Repr

/-- `DockSettings` (shared.ts): `shownHeightPx` is optional. -/
structure DockSettings where
  hideDelayMs : Int
  hiddenWidthPx : Int
  shownWidthPx : Int
  shownHeightPx : Option Int
deriving DecidableEq, Repr

/-- `AppSettings` (shared.ts). -/
structure AppSettings where
  theme : ThemeMode
  locale : Locale
  dock : DockSettings
deriving DecidableEq, Repr

/-- `clamp` from settings.ts and main.ts:
`(n, min, max) => Math.max(min, Math.min(max, n))`. -/
def clamp (n lo hi : Int) : Int := max lo (min hi n)

/-- `getDefaultSettings()` (settings.ts). -/
def getDefaultSettings : AppSettings :=
  { theme := .system
    locale := .zhCN
    dock := { hideDelayMs := 250, hiddenWidthPx := 10, shownWidthPx := 200,
              shownHeightPx := none } }

/-- `sanitizeSettings` (settings.ts).  On an integer field, the JavaScript
guard `Number(v || 0)` is the identity (`0 || 0 = 0`), so only the clamps
remain.  `shownHeightPx == null` maps `none` to `none`. -/
def sanitizeSettings (s : AppSettings) : AppSettings :=
  { theme := s.theme
    locale := s.locale
    dock :=
      { hideDelayMs := clamp s.dock.hideDelayMs 0 5000
        hiddenWidthPx := clamp s.dock.hiddenWidthPx 6 200
        shownWidthPx := clamp s.dock.shownWidthPx 60 2000
        shownHeightPx := s.dock.shownHeightPx.map (fun h => clamp h 200 5000) } }

/-- A partial `DockSettings` patch; `none` models an absent (or
`null`/`undefined`) field, which JavaScript's `??` skips. -/
structure DockSettingsPatch where
  hideDelayMs : Option Int := none
  hiddenWidthPx : Option Int := none
  shownWidthPx : Option Int := none
  shownHeightPx : Option Int := none
deriving DecidableEq, Repr

/-- A partial `AppSettings` patch (`Partial<AppSettings>`). -/
structure AppSettingsPatch where
  theme : Option ThemeMode := none
  locale : Option Locale := none
  dock : Option DockSettingsPatch := none
deriving DecidableEq, Repr

/-- `mergeSettings(base, patch)` (settings.ts): each field is
`patch.field ?? base.field`, then the result is sanitized. -/
def mergeSettings (base : AppSettings) (patch : AppSettingsPatch) : AppSettings :=
  let next : AppSettings :=
    { theme := patch.theme.getD base.theme
      locale := patch.locale.getD base.locale
      dock :=
        { hideDelayMs := (patch.dock.bind (fun dp => dp.hideDelayMs)).getD base.dock.hideDelayMs
          hiddenWidthPx := (patch.dock.bind (fun dp => dp.hiddenWidthPx)).getD base.dock.hiddenWidthPx
          shownWidthPx := (patch.dock.bind (fun dp => dp.shownWidthPx)).getD base.dock.shownWidthPx
          shownHeightPx :=
            match patch.dock.bind (fun dp => dp.shownHeightPx) with
            | some v => some v
            | none => base.dock.shownHeightPx } }
  sanitizeSettings next

/-- `const DOCK_MARGIN_PX = 10` (main.ts line 29). -/
def DOCK_MARGIN_PX : Int := 10

/-- `const DOCK_EDGE_TRIGGER_PX = 2` (main.ts line 30). -/
def DOCK_EDGE_TRIGGER_PX : Int := 2

/-- Dock side while a session is live: `'left' | 'right'`. -/
inductive SideMode where
  | left | right
deriving DecidableEq, Repr

/-- Argument of the `window:dock` IPC call: `'left' | 'center' | 'right'`. -/
inductive DockRequestMode where
  | left | center | right
deriving DecidableEq, Repr

/-- The session's remembered undocked-equivalent geometry
(`dockFullBounds : { width, height, y }`). -/
structure FullBounds where
  width : Int
  height : Int
  y : Int
deriving DecidableEq, Repr

/-- A window minimum size `{ width, height }`. -/
structure MinSize where
  width : Int
  height : Int
deriving DecidableEq, Repr

/-- The result record of `calcDockTargets`. -/
structure DockTargets where
  workArea : Rect
  shown : Rect
  hidden : Rect
deriving DecidableEq, Repr

/-- `calcDockTargets(win, mode, displayOverride)` (main.ts lines
1489–1514), with its implicit inputs made explicit: `dock` is
`appSettings.dock`, `fullBounds` is the module variable `dockFullBounds`,
`wa` is the resolved display's work area and `b` is `win.getBounds()`. -/
def calcDockTargets (mode : SideMode) (dock : DockSettings)
    (fullBounds : Option FullBounds) (wa : Rect) (b : Rect) : DockTargets :=
  let fullWidth := clamp dock.shownWidthPx 60 (wa.width - DOCK_MARGIN_PX * 2)
  let fullHeight := clamp ((fullBounds.map (fun fb => fb.height)).getD b.height) 420 wa.height
  let y := clamp ((fullBounds.map (fun fb => fb.y)).getD b.y) wa.y (wa.y + wa.height - fullHeight)
  let hiddenWidth := clamp dock.hiddenWidthPx 6 200
  let shownX :=
    match mode with
    | .left => wa.x + DOCK_MARGIN_PX
    | .right => wa.x + wa.width - fullWidth - DOCK_MARGIN_PX
  let hiddenX :=
    match mode with
    | .left => wa.x + DOCK_MARGIN_PX
    | .right => wa.x + wa.width - hiddenWidth - DOCK_MARGIN_PX
  { workArea := wa
    shown := { x := shownX, y := y, width := fullWidth, height := fullHeight }
    hidden := { x := hiddenX, y := y, width := hiddenWidth, height := fullHeight } }

/-- The module-level mutable state of `main.ts` (lines 1298–1311) plus the
observable state of the single `mainWindow`.  `winAlive` is false once the
window is gone (`!mainWindow || mainWindow.isDestroyed()`); `dockTimer`
records whether the poll interval is running; `dockSettingsWriteTimer`
holds the settings value of the pending debounced `writeSettings`, if
any. -/
structure MainState where
  appSettings : AppSettings
  dockTimer : Bool
  dockMode : Option SideMode
  dockPinned : Bool
  dockDisplayId : Option Int
  dockFullBounds : Option FullBounds
  dockShown : Bool
  dockPrevMinSize : Option MinSize
  dockInternalOps : Nat
  dockLastHoverAt : Int
  dockHideRequestedAt : Int
  dockSettingsWriteTimer : Option AppSettings
  windowAlwaysOnTop : Bool
  winAlive : Bool
  winBounds : Rect
  winMinSize : MinSize
  winAlwaysOnTop : Bool
deriving DecidableEq, Repr

/-- `getDockDisplay(win)` = `screen.getDisplayMatching(win.getBounds())`
(main.ts 1425–1428): in the single-display environment the match is the
environment's display. -/
def getDockDisplay (d : Display) (_b : Rect) : Display := d

/-- `getDisplayById(id)` (main.ts 1430–1433):
`screen.getAllDisplays().find(d => d.id === id) ?? null`, over the
single-display environment. -/
def getDisplayById (d : Display) (id : Option Int) : Option Display :=
  match id with
  | none => none
  | some i => if i = d.id then some d else none

/-- `getDisplayById(dockDisplayId) ?? getDockDisplay(win)`, the locked
display lookup that every dock routine performs. -/
def resolveDisplay (d : Display) (s : MainState) : Display :=
  (getDisplayById d s.dockDisplayId).getD (getDockDisplay d s.winBounds)

/-- `setBoundsInternal` (main.ts 1336–1346): increments the
internal-operation counter and applies the bounds synchronously.  The
deferred `setTimeout(…, 0)` decrement is the separate event
`opTimeoutEvent`. -/
def setBoundsInternal (r : Rect) (s : MainState) : MainState :=
  { s with dockInternalOps := s.dockInternalOps + 1, winBounds := r }

/-- The `setTimeout(…, 0)` body of `setBoundsInternal`:
`dockInternalOps = Math.max(0, dockInternalOps - 1)` (`Nat` subtraction
truncates at 0 exactly as `Math.max(0, ·)` does). -/
def opTimeoutEvent (s : MainState) : MainState :=
  { s with dockInternalOps := s.dockInternalOps - 1 }

/-- `stopDocking()` (main.ts 1313–1334).  The always-on-top restore and
the minimum-size restore are guarded by the window being alive; the
minimum size is restored only when `dockPrevMinSize` was saved. -/
def stopDocking (s : MainState) : MainState :=
  { s with
    dockMode := none
    dockPinned := false
    dockDisplayId := none
    dockFullBounds := none
    dockShown := false
    dockHideRequestedAt := 0
    winAlwaysOnTop := if s.winAlive then s.windowAlwaysOnTop else s.winAlwaysOnTop
    winMinSize :=
      if s.winAlive then (s.dockPrevMinSize.getD s.winMinSize) else s.winMinSize
    dockPrevMinSize := none
    dockTimer := false }

/-- `applyAppSettings(next)` (main.ts 1476–1487) restricted to its state
effects: replace `appSettings` and schedule the debounced
`writeSettings(next)` (`scheduleWriteAppSettings`, main.ts 1467–1474). -/
def applyAppSettings (next : AppSettings) (s : MainState) : MainState :=
  { s with appSettings := next, dockSettingsWriteTimer := some next }

/-- `startDocking(win, mode)` (main.ts 1516–1553, the part before the
timer body).  Read order of the source is preserved: `dockFullBounds` is
rebuilt from the current bounds before `calcDockTargets` runs, the
minimum size is saved before it is relaxed, and the window is snapped to
the `hidden` rectangle through `setBoundsInternal`.  The final
`if (dockTimer) return` only guards the interval creation, so
`dockTimer` is true afterwards in every case. -/
def startDocking (d : Display) (mode : SideMode) (now : Int) (s : MainState) : MainState :=
  let b := s.winBounds
  let fb : FullBounds :=
    { width := b.width
      height := s.appSettings.dock.shownHeightPx.getD b.height
      y := b.y }
  let prevMin := s.dockPrevMinSize.getD s.winMinSize
  let lockedId := (getDockDisplay d b).id
  let s1 : MainState :=
    { s with
      dockMode := some mode
      dockDisplayId := some lockedId
      dockFullBounds := some fb
      dockShown := false
      dockHideRequestedAt := 0
      winAlwaysOnTop := true
      dockPrevMinSize := some prevMin
      winMinSize := { width := s.appSettings.dock.hiddenWidthPx, height := prevMin.height }
      dockLastHoverAt := now }
  let locked := resolveDisplay d s1
  let t := calcDockTargets mode s1.appSettings.dock s1.dockFullBounds locked.workArea s1.winBounds
  let s2 := setBoundsInternal t.hidden s1
  { s2 with dockTimer := true }

/-- `cursor.x >= r.x && cursor.x <= r.x + r.width && cursor.y >= r.y &&
cursor.y <= r.y + r.height` — the containment test the poll tick applies
to both the work area and the window bounds (main.ts 1572–1578). -/
def cursorInRect (c : Point) (r : Rect) : Bool :=
  decide (r.x ≤ c.x) && decide (c.x ≤ r.x + r.width) &&
  decide (r.y ≤ c.y) && decide (c.y ≤ r.y + r.height)

/-- `onEdgeTrigger` (main.ts 1580–1583). -/
def onEdgeTrigger (mode : SideMode) (c : Point) (wa : Rect) : Bool :=
  match mode with
  | .left => cursorInRect c wa && decide (c.x ≤ wa.x + DOCK_EDGE_TRIGGER_PX)
  | .right => cursorInRect c wa && decide (wa.x + wa.width - DOCK_EDGE_TRIGGER_PX ≤ c.x)

/-- The poll-tick body (main.ts 1555–1639): tear down on a dead window or
a cleared mode, otherwise recompute targets, sample the cursor, decide
`shouldShow` (with the blur re-arm cooldown in the hidden branch), and
apply the target through `setBoundsInternal` only when something
changed. -/
def tickEvent (d : Display) (c : Point) (now : Int) (s : MainState) : MainState :=
  if s.winAlive = false then stopDocking s
  else
    match s.dockMode with
    | none => stopDocking s
    | some mode =>
      let b := s.winBounds
      let locked := resolveDisplay d s
      let t := calcDockTargets mode s.appSettings.dock s.dockFullBounds locked.workArea b
      let wa := t.workArea
      let cursorInWindow := cursorInRect c b
      let onEdge := onEdgeTrigger mode c wa
      let hoveringToShow := cursorInWindow || onEdge
      let hideReq := if cursorInWindow then 0 else s.dockHideRequestedAt
      let hoverAt := if cursorInWindow then now else s.dockLastHoverAt
      let shouldShow : Bool :=
        if s.dockShown = false then
          (if 0 < hideReq ∧ cursorInWindow = false then false else hoveringToShow)
        else if s.dockPinned = true then true
        else if 0 < hideReq then false
        else true
      let target := if shouldShow then t.shown else t.hidden
      let nextWidth := target.width
      let nextX :=
        match mode with
        | .left => target.x
        | .right => (target.x + target.width) - nextWidth
      let changed :=
        nextWidth ≠ b.width ∨ nextX ≠ b.x ∨ b.y ≠ target.y ∨ b.height ≠ target.height
      let s1 : MainState :=
        { s with dockHideRequestedAt := hideReq, dockLastHoverAt := hoverAt,
                 dockShown := shouldShow }
      if changed then
        setBoundsInternal { x := nextX, y := target.y, width := nextWidth, height := target.height } s1
      else s1

/-- `handleMoveWhileDocked` (main.ts 1397–1423): merge the new `y` into
`dockFullBounds`, recompute the current target and re-snap through
`setBoundsInternal` (for `right`, `x = rightEdge − width` where
`rightEdge = target.x + target.width`). -/
def handleMoveWhileDocked (d : Display) (s : MainState) : MainState :=
  match s.dockMode with
  | none => s
  | some mode =>
    let b := s.winBounds
    let fb1 : FullBounds :=
      match s.dockFullBounds with
      | none => { width := b.width, height := b.height, y := b.y }
      | some fb => { width := fb.width, height := fb.height, y := b.y }
    let s1 := { s with dockFullBounds := some fb1 }
    let locked := resolveDisplay d s1
    let t := calcDockTargets mode s1.appSettings.dock s1.dockFullBounds locked.workArea b
    let target := if s1.dockShown then t.shown else t.hidden
    let x :=
      match mode with
      | .left => target.x
      | .right => (target.x + target.width) - target.width
    setBoundsInternal { x := x, y := target.y, width := target.width, height := target.height } s1

/-- `handleResizeWhileDocked` (main.ts 1348–1395): merge height/y (and
width only while shown) into `dockFullBounds`, write the remembered
expanded size back into the settings (`mergeSettings` applied to a patch
that carries only `dock`, then `sanitizeSettings` — which composes to
sanitizing the record with the new dock settings), and re-snap to the
mode's alignment rule. -/
def handleResizeWhileDocked (d : Display) (s : MainState) : MainState :=
  match s.dockMode with
  | none => s
  | some mode =>
    let b := s.winBounds
    let fb0 : FullBounds :=
      match s.dockFullBounds with
      | none => { width := b.width, height := b.height, y := b.y }
      | some fb => { width := fb.width, height := b.height, y := b.y }
    let fb1 : FullBounds :=
      if s.dockShown then { width := b.width, height := fb0.height, y := fb0.y } else fb0
    let nextDock : DockSettings :=
      { hideDelayMs := s.appSettings.dock.hideDelayMs
        hiddenWidthPx := s.appSettings.dock.hiddenWidthPx
        shownWidthPx :=
          if s.dockShown then clamp b.width 60 2000 else s.appSettings.dock.shownWidthPx
        shownHeightPx := some (clamp b.height 420 5000) }
    let merged := sanitizeSettings { theme := s.appSettings.theme, locale := s.appSettings.locale, dock := nextDock }
    let changed :=
      merged.dock.shownWidthPx ≠ s.appSettings.dock.shownWidthPx ∨
      merged.dock.shownHeightPx ≠ s.appSettings.dock.shownHeightPx
    let settings2 := if changed then merged else s.appSettings
    let writeTimer2 := if changed then some merged else s.dockSettingsWriteTimer
    let locked := resolveDisplay d s
    let t := calcDockTargets mode settings2.dock (some fb1) locked.workArea b
    let target := if s.dockShown then t.shown else t.hidden
    let x :=
      match mode with
      | .left => target.x
      | .right => (target.x + target.width) - target.width
    { s with
      dockFullBounds := some fb1
      appSettings := settings2
      dockSettingsWriteTimer := writeTimer2
      dockInternalOps := s.dockInternalOps + 1
      winBounds := { x := x, y := target.y, width := target.width, height := target.height } }

/-- The `mainWindow.on('move')` callback (main.ts 1683–1688), run after
the toolkit has already applied the new bounds: no-op unless a session is
live and no internal operation is pending. -/
def onMoveEvent (d : Display) (s : MainState) : MainState :=
  if s.winAlive = false then s
  else if s.dockMode = none then s
  else if 0 < s.dockInternalOps then s
  else handleMoveWhileDocked d s

/-- The `mainWindow.on('resize')` callback (main.ts 1689–1695). -/
def onResizeEvent (d : Display) (s : MainState) : MainState :=
  if s.winAlive = false then s
  else if s.dockMode = none then s
  else if 0 < s.dockInternalOps then s
  else handleResizeWhileDocked d s

/-- The `mainWindow.on('blur')` callback (main.ts 1698–1719): while
docked, not pinned and currently shown, record `hideRequestedAt = now`
and snap to the `hidden` rectangle synchronously. -/
def onBlurEvent (d : Display) (now : Int) (s : MainState) : MainState :=
  if s.winAlive = false then s
  else
    match s.dockMode with
    | none => s
    | some mode =>
      if s.dockPinned = true then s
      else if s.dockShown = false then s
      else
        let locked := resolveDisplay d s
        let t := calcDockTargets mode s.appSettings.dock s.dockFullBounds locked.workArea s.winBounds
        let s1 : MainState := { s with dockHideRequestedAt := now, dockShown := false }
        setBoundsInternal t.hidden s1

/-- The `mainWindow.on('focus')` callback (main.ts 1722–1725). -/
def onFocusEvent (s : MainState) : MainState :=
  if s.dockMode = none then s else { s with dockHideRequestedAt := 0 }

/-- `Math.round(a / 2)` for an integer `a`: round half toward positive
infinity, i.e. `⌊(a + 1) / 2⌋`. -/
def roundHalfDiv2 (a : Int) : Int := (a + 1).fdiv 2

/-- The `window:dock` IPC handler (main.ts 2162–2184).  For `center` it
remembers `dockFullBounds`, tears the session down, and centers a
rectangle derived from the remembered bounds (plain `setBounds`, no
internal-op marker); for `left`/`right` it starts docking. -/
def windowDockHandle (d : Display) (mode : DockRequestMode) (now : Int) (s : MainState) : MainState :=
  if s.winAlive = false then s
  else
    match mode with
    | .center =>
      let restore := s.dockFullBounds
      let s1 := stopDocking s
      let wa := (getDockDisplay d s1.winBounds).workArea
      let b := s1.winBounds
      let width := (restore.map (fun fb => fb.width)).getD b.width
      let height := (restore.map (fun fb => fb.height)).getD b.height
      let x := wa.x + roundHalfDiv2 (wa.width - width)
      let y := wa.y + roundHalfDiv2 (wa.height - height)
      { s1 with winBounds := { x := x, y := y, width := width, height := height } }
    | .left => startDocking d .left now s
    | .right => startDocking d .right now s

/-- The `window:setDockPinned` IPC handler (main.ts 2190–2201): returns
the new state and the handler's return value. -/
def setDockPinnedHandle (v : Bool) (s : MainState) : MainState × Bool :=
  if s.winAlive = false then (s, false)
  else
    match s.dockMode with
    | none => ({ s with dockPinned := false }, false)
    | some _ => ({ s with dockPinned := v }, v)

/-- The `window:setAlwaysOnTop` IPC handler (main.ts 2207–2217): records
the user's independent preference and applies it to the window only when
no dock session is live. -/
def setAlwaysOnTopHandle (v : Bool) (s : MainState) : MainState :=
  if s.winAlive = false then s
  else
    let s1 : MainState := { s with windowAlwaysOnTop := v }
    if s1.dockMode = none then { s1 with winAlwaysOnTop := v } else s1

/-- The `settings:update` IPC handler (main.ts 2224–2242) restricted to
its dock-relevant state effect: `appSettings` becomes the sanitized merge
of the current settings with the patch. -/
def settingsUpdateHandle (patch : AppSettingsPatch) (s : MainState) : MainState :=
  { s with appSettings := sanitizeSettings (mergeSettings s.appSettings patch) }

/-- The event alphabet of the dock subsystem: the two mutation sources of
§5 of the design (poll tick, window-toolkit callbacks) plus the IPC
commands and the deferred internal-op decrement.  `moveEv`/`resizeEv`
carry the bounds the toolkit has already applied when the callback
fires. -/
inductive Ev where
  | dockReq (mode : DockRequestMode) (now : Int)
  | setPinned (v : Bool)
  | tick (c : Point) (now : Int)
  | blur (now : Int)
  | focus
  | moveEv (nb : Rect)
  | resizeEv (nb : Rect)
  | opTimeout
  | setAOT (v : Bool)
  | settingsUpdate (p : AppSettingsPatch)
  | destroy

/-- One step of the event-driven state machine. -/
def stepEv (d : Display) (e : Ev) (s : MainState) : MainState :=
  match e with
  | .dockReq mode now => windowDockHandle d mode now s
  | .setPinned v => (setDockPinnedHandle v s).1
  | .tick c now => tickEvent d c now s
  | .blur now => onBlurEvent d now s
  | .focus => onFocusEvent s
  | .moveEv nb => onMoveEvent d { s with winBounds := nb }
  | .resizeEv nb => onResizeEvent d { s with winBounds := nb }
  | .opTimeout => opTimeoutEvent s
  | .setAOT v => setAlwaysOnTopHandle v s
  | .settingsUpdate p => settingsUpdateHandle p s
  | .destroy => { s with winAlive := false }

/-- The state right after module load and window creation: the
module-level variables of main.ts lines 1298–1311 at their declared
values, `appSettings` as loaded by `readSettings()` at startup
(parameter `loaded`), and a fresh 1100×720 window with minimum size
900×520 (main.ts 1643–1648) at an OS-chosen position `(x, y)`. -/
def initState (x y : Int) (loaded : AppSettings) : MainState :=
  { appSettings := loaded
    dockTimer := false
    dockMode := none
    dockPinned := false
    dockDisplayId := none
    dockFullBounds := none
    dockShown := false
    dockPrevMinSize := none
    dockInternalOps := 0
    dockLastHoverAt := 0
    dockHideRequestedAt := 0
    dockSettingsWriteTimer := none
    windowAlwaysOnTop := false
    winAlive := true
    winBounds := { x := x, y := y, width := 1100, height := 720 }
    winMinSize := { width := 900, height := 520 }
    winAlwaysOnTop := false }

/-- States reachable from startup under any sequence of events. -/
inductive Reachable (d : Display) : MainState → Prop where
  | init (x y : Int) (loaded : AppSettings) : Reachable d (initState x y loaded)
  | step {s : MainState} (e : Ev) : Reachable d s → Reachable d (stepEv d e s)

/-- A 1920×1080 display at the origin, used as concrete environment. -/
def display0 : Display :=
  { id := 1, workArea := { x := 0, y := 0, width := 1920, height := 1080 } }

/-- A concrete startup state over the default settings. -/
def state0 : MainState := initState 100 80 getDefaultSettings

/-- The right-dock alignment predicate of the design: the window's right
edge sits `DOCK_MARGIN_PX` inside the work area's right edge. -/
def rightAligned (wa r : Rect) : Prop :=
  r.x + r.width = wa.x + wa.width - DOCK_MARGIN_PX

instance (wa r : Rect) : Decidable (rightAligned wa r) := by
  unfold rightAligned; infer_instance

/-- One user width/height change while docked: the toolkit applies the new
bounds `nb`, the `resize` callback runs (no internal operation pending),
and the deferred internal-op release fires before the next event. -/
def userResizeStep (d : Display) (s : MainState) (nb : Rect) : MainState :=
  opTimeoutEvent (onResizeEvent d { s with winBounds := nb })

theorem clamp_idem (n lo hi : Int) : clamp (clamp n lo hi) lo hi = clamp n lo hi := by
  unfold clamp; omega

theorem resolveDisplay_eq (d : Display) (s : MainState) : resolveDisplay d s = d := by
  unfold resolveDisplay getDisplayById getDockDisplay
  cases s.dockDisplayId with
  | none => rfl
  | some i => by_cases h : i = d.id <;> simp [h]

/-- The out-of-range persisted record from §8 of the spec:
`{hiddenWidthPx: 500, shownWidthPx: 60}`. -/
def badSettingsInput : AppSettings :=
  { theme := .system, locale := .zhCN
    dock := { hideDelayMs := 250, hiddenWidthPx := 500, shownWidthPx := 60,
              shownHeightPx := none } }

/-- C1 counterexample: `sanitizeSettings` clamps `hiddenWidthPx` and
`shownWidthPx` independently, so the input `{hiddenWidthPx: 500,
shownWidthPx: 60}` is returned as `{200, 60}`, which violates
`hiddenWidthPx < shownWidthPx`. -/
theorem sanitizeSettings_hidden_lt_shown_cex :
    (sanitizeSettings badSettingsInput).dock.hiddenWidthPx = 200 ∧
    (sanitizeSettings badSettingsInput).dock.shownWidthPx = 60 ∧
    ¬ (sanitizeSettings badSettingsInput).dock.hiddenWidthPx <
        (sanitizeSettings badSettingsInput).dock.shownWidthPx := by
  decide

/-- C1 (amended): `sanitizeSettings` clamps `hideDelayMs` into [0,5000],
`hiddenWidthPx` into [6,200] and `shownWidthPx` into [60,2000]; the
returned record satisfies `hiddenWidthPx < shownWidthPx` whenever the
input's `hiddenWidthPx` is below 60 (in particular for every record whose
hidden width is already in its valid range and below the shown-width
minimum), but not for every input. -/
theorem sanitizeSettings_clamps (s : AppSettings) :
    (0 ≤ (sanitizeSettings s).dock.hideDelayMs ∧
      (sanitizeSettings s).dock.hideDelayMs ≤ 5000 ∧
      6 ≤ (sanitizeSettings s).dock.hiddenWidthPx ∧
      (sanitizeSettings s).dock.hiddenWidthPx ≤ 200 ∧
      60 ≤ (sanitizeSettings s).dock.shownWidthPx ∧
      (sanitizeSettings s).dock.shownWidthPx ≤ 2000) ∧
    (s.dock.hiddenWidthPx < 60 →
      (sanitizeSettings s).dock.hiddenWidthPx < (sanitizeSettings s).dock.shownWidthPx) := by
  unfold sanitizeSettings clamp
  simp only []
  omega

/-- Witness for `sanitizeSettings_clamps` at the default settings. -/
theorem sanitizeSettings_clamps_witness :
    getDefaultSettings.dock.hiddenWidthPx < 60 ∧
    (sanitizeSettings getDefaultSettings).dock.hiddenWidthPx <
      (sanitizeSettings getDefaultSettings).dock.shownWidthPx :=
  ⟨by decide, (sanitizeSettings_clamps getDefaultSettings).2 (by decide)⟩

/-- The settings record of Scenario A of the spec. -/
def scenarioASettings : DockSettings :=
  { hideDelayMs := 250, hiddenWidthPx := 10, shownWidthPx := 200, shownHeightPx := none }

/-- C5: the four clamp equations of `calcDockTargets`, the left-mode
x-coordinates, and Scenario A: a 1920×1080 work area with
`hiddenWidthPx = 10`, `shownWidthPx = 200` in left mode gives
`hidden = {x:10, width:10}` and `shown = {x:10, width:200}`. -/
theorem calcDockTargets_spec (mode : SideMode) (dock : DockSettings)
    (fb : FullBounds) (wa b : Rect) :
    (calcDockTargets mode dock (some fb) wa b).shown.width =
        clamp dock.shownWidthPx 60 (wa.width - 2 * DOCK_MARGIN_PX) ∧
    (calcDockTargets mode dock (some fb) wa b).shown.height =
        clamp fb.height 420 wa.height ∧
    (calcDockTargets mode dock (some fb) wa b).shown.y =
        clamp fb.y wa.y
          (wa.y + wa.height - (calcDockTargets mode dock (some fb) wa b).shown.height) ∧
    (calcDockTargets mode dock (some fb) wa b).hidden.width =
        clamp dock.hiddenWidthPx 6 200 ∧
    (calcDockTargets .left dock (some fb) wa b).shown.x = wa.x + DOCK_MARGIN_PX ∧
    (calcDockTargets .left dock (some fb) wa b).hidden.x = wa.x + DOCK_MARGIN_PX ∧
    ((calcDockTargets .left scenarioASettings (some ⟨1100, 720, 80⟩) display0.workArea
        ⟨100, 80, 1100, 720⟩).hidden.x = 10 ∧
      (calcDockTargets .left scenarioASettings (some ⟨1100, 720, 80⟩) display0.workArea
        ⟨100, 80, 1100, 720⟩).hidden.width = 10 ∧
      (calcDockTargets .left scenarioASettings (some ⟨1100, 720, 80⟩) display0.workArea
        ⟨100, 80, 1100, 720⟩).shown.x = 10 ∧
      (calcDockTargets .left scenarioASettings (some ⟨1100, 720, 80⟩) display0.workArea
        ⟨100, 80, 1100, 720⟩).shown.width = 200) := by
  refine ⟨?_, rfl, rfl, rfl, rfl, rfl, by decide⟩
  unfold calcDockTargets clamp
  simp only []
  omega

theorem userResizeStep_inv (d : Display) (s : MainState) (nb : Rect)
    (halive : s.winAlive = true) (hmode : s.dockMode = some SideMode.right)
    (hops : s.dockInternalOps = 0) :
    (userResizeStep d s nb).winAlive = true ∧
    (userResizeStep d s nb).dockMode = some SideMode.right ∧
    (userResizeStep d s nb).dockInternalOps = 0 ∧
    rightAligned d.workArea (userResizeStep d s nb).winBounds := by
  have hres : onResizeEvent d { s with winBounds := nb } =
      handleResizeWhileDocked d { s with winBounds := nb } := by
    unfold onResizeEvent
    simp [halive, hmode, hops]
  unfold userResizeStep
  rw [hres]
  unfold handleResizeWhileDocked
  simp only [hmode, resolveDisplay_eq]
  unfold opTimeoutEvent
  refine ⟨?_, ?_, ?_, ?_⟩
  · exact halive
  · rfl
  · exact hops
  · simp only []
    split <;>
    · unfold rightAligned calcDockTargets DOCK_MARGIN_PX clamp
      simp only []
      omega

/-- C2: for right mode, both `calcDockTargets` rectangles are right-edge
aligned (`x + width = workArea.x + workArea.width − margin`, margin 10),
and the alignment of the live window bounds is preserved by any sequence
of width changes processed through the docked `resize` handler. -/
theorem right_dock_alignment (d : Display) (dock : DockSettings) (fb : Option FullBounds)
    (wa b : Rect) (s : MainState) (l : List Rect)
    (halive : s.winAlive = true) (hmode : s.dockMode = some SideMode.right)
    (hops : s.dockInternalOps = 0) (hal : rightAligned d.workArea s.winBounds) :
    ((calcDockTargets .right dock fb wa b).shown.x +
          (calcDockTargets .right dock fb wa b).shown.width =
        wa.x + wa.width - DOCK_MARGIN_PX ∧
      (calcDockTargets .right dock fb wa b).hidden.x +
          (calcDockTargets .right dock fb wa b).hidden.width =
        wa.x + wa.width - DOCK_MARGIN_PX) ∧
    rightAligned d.workArea (l.foldl (userResizeStep d) s).winBounds := by
  constructor
  · unfold calcDockTargets DOCK_MARGIN_PX clamp
    simp only []
    constructor <;> ring
  · induction l generalizing s with
    | nil => exact hal
    | cons nb rest ih =>
      simp only [List.foldl_cons]
      have h := userResizeStep_inv d s nb halive hmode hops
      exact ih _ h.1 h.2.1 h.2.2.1 h.2.2.2

/-- A concrete right-docked quiescent state (session started, internal-op
echo released). -/
def dockedRight0 : MainState :=
  { windowDockHandle display0 .right 1000 state0 with dockInternalOps := 0 }

/-- Witness for `right_dock_alignment`: one user resize to 500×600 at
(400, 50) keeps the right edge flush at x = 1910. -/
theorem right_dock_alignment_witness :
    (dockedRight0.winAlive = true ∧ dockedRight0.dockMode = some SideMode.right ∧
      dockedRight0.dockInternalOps = 0 ∧
      rightAligned display0.workArea dockedRight0.winBounds) ∧
    rightAligned display0.workArea
      (([⟨400, 50, 500, 600⟩] : List Rect).foldl (userResizeStep display0) dockedRight0).winBounds :=
  ⟨⟨by decide, by decide, by decide, by decide⟩,
    (right_dock_alignment display0 getDefaultSettings.dock none display0.workArea
        ⟨0, 0, 0, 0⟩ dockedRight0 [⟨400, 50, 500, 600⟩]
        (by decide) (by decide) (by decide) (by decide)).2⟩

/-- C3: while `dockInternalOps > 0` (a `setBoundsInternal` echo still
pending) the `move` and `resize` callbacks are complete no-ops: the state
— including `dockFullBounds`, the settings (with their pending persisted
write) and the window bounds — is returned unchanged, so a self-triggered
bounds change is never reinterpreted as a user action. -/
theorem internal_ops_suppress_handlers (d : Display) (s : MainState)
    (h : 0 < s.dockInternalOps) :
    onMoveEvent d s = s ∧ onResizeEvent d s = s := by
  refine ⟨?_, ?_⟩
  · unfold onMoveEvent
    split_ifs <;> rfl
  · unfold onResizeEvent
    split_ifs <;> rfl

/-- A docked state with one internal operation still pending (exactly the
state right after `startDocking` snapped the window). -/
def dockedRightPending : MainState := windowDockHandle display0 .right 1000 state0

/-- Witness for `internal_ops_suppress_handlers`. -/
theorem internal_ops_suppress_handlers_witness :
    0 < dockedRightPending.dockInternalOps ∧
    onMoveEvent display0 dockedRightPending = dockedRightPending ∧
    onResizeEvent display0 dockedRightPending = dockedRightPending :=
  ⟨by decide, internal_ops_suppress_handlers display0 dockedRightPending (by decide)⟩

/-- C4: the `blur` handler itself (no poll tick involved) snaps the
window to the `hidden` rectangle and stamps `hideRequestedAt = now` when
a session is live, unpinned and shown; when pinned, it changes nothing
(state and bounds stay as they were, i.e. shown). -/
theorem blur_behavior (d : Display) (now : Int) (s : MainState) (m : SideMode) :
    (s.winAlive = true → s.dockMode = some m → s.dockPinned = false → s.dockShown = true →
      (onBlurEvent d now s).winBounds =
          (calcDockTargets m s.appSettings.dock s.dockFullBounds d.workArea s.winBounds).hidden ∧
        (onBlurEvent d now s).dockHideRequestedAt = now ∧
        (onBlurEvent d now s).dockShown = false) ∧
    (s.dockPinned = true → onBlurEvent d now s = s) := by
  constructor
  · intro halive hmode hpin hshown
    unfold onBlurEvent
    simp [halive, hmode, hpin, hshown, resolveDisplay_eq, setBoundsInternal]
  · intro hpin
    unfold onBlurEvent
    by_cases ha : s.winAlive = false
    · simp [ha]
    · cases hm : s.dockMode <;> simp [ha, hm, hpin]

/-- A live right-docked session currently shown and not pinned. -/
def shownUnpinned : MainState :=
  { windowDockHandle display0 .right 1000 state0 with dockShown := true, dockInternalOps := 0 }

/-- The same session with the pin enabled. -/
def shownPinned : MainState := { shownUnpinned with dockPinned := true }

/-- Witness for `blur_behavior`: blur hides the unpinned session and
stamps the hide request; the pinned session is untouched. -/
theorem blur_behavior_witness :
    ((onBlurEvent display0 777 shownUnpinned).dockHideRequestedAt = 777 ∧
      (onBlurEvent display0 777 shownUnpinned).dockShown = false) ∧
    onBlurEvent display0 777 shownPinned = shownPinned :=
  ⟨((blur_behavior display0 777 shownUnpinned SideMode.right).1
      (by decide) (by decide) (by decide) (by decide)).2,
    (blur_behavior display0 777 shownPinned SideMode.right).2 (by decide)⟩

theorem startDocking_winAlive (d : Display) (m : SideMode) (now : Int) (s : MainState) :
    (startDocking d m now s).winAlive = s.winAlive := rfl

/-- C6 counterexample: `dock('right')` twice is not idempotent on the
session state.  From the startup state (window 1100×720), one call
remembers `fullBounds = {width 1100, height 720, y 80}`; the second call
re-reads the now-hidden window and overwrites the remembered width with
the 10 px peek width. -/
theorem dock_right_idempotence_cex :
    (windowDockHandle display0 .right 1000 state0).dockFullBounds =
        some { width := 1100, height := 720, y := 80 } ∧
    (windowDockHandle display0 .right 2000
        (windowDockHandle display0 .right 1000 state0)).dockFullBounds =
        some { width := 10, height := 720, y := 80 } ∧
    (windowDockHandle display0 .right 2000
        (windowDockHandle display0 .right 1000 state0)).dockFullBounds ≠
      (windowDockHandle display0 .right 1000 state0).dockFullBounds := by
  decide

/-- C6 (amended): a second `dock('right')` reproduces the first call's
`dockMode`, `dockDisplayId`, `dockShown`, `dockHideRequestedAt`,
`dockPrevMinSize` and applied window bounds, but rebuilds
`dockFullBounds` from the already-hidden window: its width becomes the
clamped hidden width (and its height/y the hidden rectangle's), so the
full session state matches only when the pre-dock width already equals
the peek width. -/
theorem dock_right_twice (d : Display) (now1 now2 : Int) (s : MainState)
    (halive : s.winAlive = true) :
    (windowDockHandle d .right now2 (windowDockHandle d .right now1 s)).dockMode =
        (windowDockHandle d .right now1 s).dockMode ∧
    (windowDockHandle d .right now2 (windowDockHandle d .right now1 s)).dockDisplayId =
        (windowDockHandle d .right now1 s).dockDisplayId ∧
    (windowDockHandle d .right now2 (windowDockHandle d .right now1 s)).dockShown =
        (windowDockHandle d .right now1 s).dockShown ∧
    (windowDockHandle d .right now2 (windowDockHandle d .right now1 s)).dockHideRequestedAt =
        (windowDockHandle d .right now1 s).dockHideRequestedAt ∧
    (windowDockHandle d .right now2 (windowDockHandle d .right now1 s)).dockPrevMinSize =
        (windowDockHandle d .right now1 s).dockPrevMinSize ∧
    (windowDockHandle d .right now2 (windowDockHandle d .right now1 s)).winBounds =
        (windowDockHandle d .right now1 s).winBounds ∧
    (windowDockHandle d .right now2 (windowDockHandle d .right now1 s)).dockFullBounds =
        some { width := clamp s.appSettings.dock.hiddenWidthPx 6 200
               height := s.appSettings.dock.shownHeightPx.getD
                   (windowDockHandle d .right now1 s).winBounds.height
               y := (windowDockHandle d .right now1 s).winBounds.y } := by
  have h1 : windowDockHandle d .right now1 s = startDocking d .right now1 s := by
    unfold windowDockHandle
    simp [halive]
  have h2 : windowDockHandle d .right now2 (startDocking d .right now1 s) =
      startDocking d .right now2 (startDocking d .right now1 s) := by
    unfold windowDockHandle
    simp [startDocking_winAlive, halive]
  rw [h1, h2]
  refine ⟨rfl, rfl, rfl, rfl, ?_, ?_, ?_⟩
  · unfold startDocking setBoundsInternal
    dsimp only
    simp [Option.getD_some]
  · unfold startDocking setBoundsInternal
    simp only [resolveDisplay_eq]
    unfold calcDockTargets
    dsimp only
    simp only [Option.map_some', Option.getD_some]
    cases hshp : s.appSettings.dock.shownHeightPx with
    | none =>
      simp only [hshp, Option.getD_none]
      rw [Rect.mk.injEq]
      unfold clamp DOCK_MARGIN_PX
      refine ⟨rfl, ?_, rfl, ?_⟩ <;> omega
    | some hpx =>
      simp only [hshp, Option.getD_some]
      rw [Rect.mk.injEq]
      unfold clamp DOCK_MARGIN_PX
      refine ⟨rfl, ?_, rfl, ?_⟩ <;> omega
  · unfold startDocking setBoundsInternal
    simp only [resolveDisplay_eq]
    rfl

/-- Witness for `dock_right_twice` at the startup state. -/
theorem dock_right_twice_witness :
    state0.winAlive = true ∧
    (windowDockHandle display0 .right 2000
        (windowDockHandle display0 .right 1000 state0)).winBounds =
      (windowDockHandle display0 .right 1000 state0).winBounds :=
  ⟨by decide, (dock_right_twice display0 1000 2000 state0 (by decide)).2.2.2.2.2.1⟩

/-- C7: `dock('right')`, `dock('center')`, `dock('right')` with no user
action in between gives a second session whose remembered
`fullBounds.height` equals the first session's: the center restore sizes
the window from the remembered bounds, and the re-dock remembers
`shownHeightPx ?? currentHeight` again. -/
theorem dock_center_dock_height (d : Display) (n1 n2 n3 : Int) (s : MainState)
    (halive : s.winAlive = true) :
    (windowDockHandle d .right n3 (windowDockHandle d .center n2
        (windowDockHandle d .right n1 s))).dockFullBounds.map (fun fb => fb.height) =
      (windowDockHandle d .right n1 s).dockFullBounds.map (fun fb => fb.height) := by
  have h1 : windowDockHandle d .right n1 s = startDocking d .right n1 s := by
    unfold windowDockHandle
    simp [halive]
  rw [h1]
  unfold windowDockHandle startDocking stopDocking setBoundsInternal
  simp only [resolveDisplay_eq, halive]
  simp only [Option.map_some', Option.getD_some]
  cases hshp : s.appSettings.dock.shownHeightPx with
  | none => simp [hshp]
  | some hpx => simp [hshp]

/-- Witness for `dock_center_dock_height` at the startup state (both
sessions remember height 720). -/
theorem dock_center_dock_height_witness :
    state0.winAlive = true ∧
    (windowDockHandle display0 .right 1200 (windowDockHandle display0 .center 1100
        (windowDockHandle display0 .right 1000 state0))).dockFullBounds.map
        (fun fb => fb.height) =
      (windowDockHandle display0 .right 1000 state0).dockFullBounds.map (fun fb => fb.height) :=
  ⟨by decide, dock_center_dock_height display0 1000 1100 1200 state0 (by decide)⟩

theorem calcDockTargets_workArea (m : SideMode) (dock : DockSettings)
    (fb : Option FullBounds) (wa b : Rect) :
    (calcDockTargets m dock fb wa b).workArea = wa := rfl

/-- A left-docked hidden session still inside the blur re-arm cooldown
(`dockHideRequestedAt > 0`). -/
def rearmCooldownState : MainState :=
  { windowDockHandle display0 .left 1000 state0 with dockHideRequestedAt := 1 }

/-- C8 counterexample: with a blur-triggered hide still pending, a poll
tick that sees the cursor on the edge trigger (cursor (1, 500), within
`DOCK_EDGE_TRIGGER_PX = 2` of the left edge) but outside the window
leaves the window hidden, so edge contact alone does not reveal. -/
theorem edge_trigger_rearm_cex :
    rearmCooldownState.dockMode = some SideMode.left ∧
    rearmCooldownState.dockShown = false ∧
    onEdgeTrigger .left ⟨1, 500⟩ display0.workArea = true ∧
    cursorInRect ⟨1, 500⟩ rearmCooldownState.winBounds = false ∧
    (tickEvent display0 ⟨1, 500⟩ 1500 rearmCooldownState).dockShown = false := by
  decide

/-- C8 (amended): a poll tick on a hidden left-docked session sets
`shown = true` when the cursor is on the left edge trigger, provided no
blur-triggered hide request is pending or the cursor is back inside the
window bounds (the re-arm condition of the source). -/
theorem edge_trigger_reveals (d : Display) (c : Point) (now : Int) (s : MainState)
    (halive : s.winAlive = true) (hmode : s.dockMode = some SideMode.left)
    (hhidden : s.dockShown = false)
    (hedge : onEdgeTrigger .left c d.workArea = true)
    (harm : s.dockHideRequestedAt = 0 ∨ cursorInRect c s.winBounds = true) :
    (tickEvent d c now s).dockShown = true := by
  unfold tickEvent
  rcases harm with h0 | hin
  · simp [halive, hmode, hhidden, calcDockTargets_workArea, resolveDisplay_eq, hedge, h0,
      setBoundsInternal, apply_ite MainState.dockShown]
  · simp [halive, hmode, hhidden, calcDockTargets_workArea, resolveDisplay_eq, hedge, hin,
      setBoundsInternal, apply_ite MainState.dockShown]

/-- Witness for `edge_trigger_reveals`: the freshly left-docked session
(no hide pending) is revealed by a tick with the cursor at (1, 500). -/
theorem edge_trigger_reveals_witness :
    (windowDockHandle display0 .left 1000 state0).dockHideRequestedAt = 0 ∧
    (tickEvent display0 ⟨1, 500⟩ 1500 (windowDockHandle display0 .left 1000 state0)).dockShown = true :=
  ⟨by decide,
    edge_trigger_reveals display0 ⟨1, 500⟩ 1500 (windowDockHandle display0 .left 1000 state0)
      (by decide) (by decide) (by decide) (by decide) (Or.inl (by decide))⟩

/-- C9: `stopDocking` clears the timer handle in the same call, restores
the minimum size saved at session start and restores always-on-top to the
user's independent preference; and a poll tick on a dead window reduces
to `stopDocking` (a value-level branch — the embedded tick is a total
function, so no exception is involved). -/
theorem stop_docking_restores (s : MainState) (p : MinSize)
    (halive : s.winAlive = true) (hprev : s.dockPrevMinSize = some p) :
    (stopDocking s).dockTimer = false ∧
    (stopDocking s).winMinSize = p ∧
    (stopDocking s).winAlwaysOnTop = s.windowAlwaysOnTop ∧
    (∀ (d : Display) (c : Point) (now : Int) (s' : MainState),
      s'.winAlive = false → tickEvent d c now s' = stopDocking s') := by
  refine ⟨rfl, ?_, ?_, ?_⟩
  · unfold stopDocking
    simp [halive, hprev]
  · unfold stopDocking
    simp [halive]
  · intro d c now s' hdead
    unfold tickEvent
    simp [hdead]

/-- Witness for `stop_docking_restores`: ending the freshly started
session restores the 900×520 minimum size, and a tick on a destroyed
window equals `stopDocking`. -/
theorem stop_docking_restores_witness :
    (stopDocking dockedRightPending).winMinSize = { width := 900, height := 520 } ∧
    tickEvent display0 ⟨0, 0⟩ 5 { state0 with winAlive := false } =
      stopDocking { state0 with winAlive := false } :=
  ⟨(stop_docking_restores dockedRightPending { width := 900, height := 520 }
      (by decide) (by decide)).2.1,
    (stop_docking_restores dockedRightPending { width := 900, height := 520 }
      (by decide) (by decide)).2.2.2 display0 ⟨0, 0⟩ 5 { state0 with winAlive := false } rfl⟩

theorem stopDocking_pinned (s : MainState) : (stopDocking s).dockPinned = false := rfl

theorem startDocking_dockMode (d : Display) (m : SideMode) (now : Int) (s : MainState) :
    (startDocking d m now s).dockMode = some m := rfl

theorem handleMove_frame (d : Display) (s : MainState) :
    (handleMoveWhileDocked d s).dockPinned = s.dockPinned ∧
    (handleMoveWhileDocked d s).dockMode = s.dockMode := by
  unfold handleMoveWhileDocked
  cases hm : s.dockMode <;> simp [hm, setBoundsInternal]

theorem handleResize_frame (d : Display) (s : MainState) :
    (handleResizeWhileDocked d s).dockPinned = s.dockPinned ∧
    (handleResizeWhileDocked d s).dockMode = s.dockMode := by
  unfold handleResizeWhileDocked
  cases hm : s.dockMode <;> simp [hm]

theorem stepEv_pin (d : Display) (e : Ev) (s : MainState)
    (ih : s.dockMode = none → s.dockPinned = false) :
    (stepEv d e s).dockMode = none → (stepEv d e s).dockPinned = false := by
  cases e with
  | dockReq mode now =>
    unfold stepEv windowDockHandle
    dsimp only
    by_cases ha : s.winAlive = false
    · simp only [ha, if_true]
      exact ih
    · simp only [ha, if_false]
      cases mode with
      | center => intro _; rfl
      | left => simp [startDocking_dockMode]
      | right => simp [startDocking_dockMode]
  | setPinned v =>
    unfold stepEv setDockPinnedHandle
    dsimp only
    by_cases ha : s.winAlive = false
    · simp only [ha, if_true]
      exact ih
    · cases hm : s.dockMode with
      | none => simp [ha, hm]
      | some m => simp [ha, hm]
  | tick c now =>
    unfold stepEv
    dsimp only
    by_cases ha : s.winAlive = false
    · intro _
      simp [tickEvent, ha, stopDocking_pinned]
    · cases hm : s.dockMode with
      | none =>
        intro _
        simp [tickEvent, ha, hm, stopDocking_pinned]
      | some m =>
        simp [tickEvent, ha, hm, setBoundsInternal,
          apply_ite MainState.dockMode, apply_ite MainState.dockPinned]
  | blur now =>
    unfold stepEv onBlurEvent
    dsimp only
    by_cases ha : s.winAlive = false
    · simp only [ha, if_true]
      exact ih
    · cases hm : s.dockMode with
      | none =>
        simp only [ha, if_false, hm]
        exact fun h => ih h
      | some m =>
        simp [ha, hm, setBoundsInternal]
        split_ifs <;> simp [hm, ih]
  | focus =>
    unfold stepEv onFocusEvent
    dsimp only
    split_ifs with h
    · exact ih
    · exact fun hh => absurd hh h
  | moveEv nb =>
    unfold stepEv onMoveEvent
    dsimp only
    split_ifs with h1 h2 h3
    · exact ih
    · exact ih
    · exact ih
    · have hf := handleMove_frame d { s with winBounds := nb }
      intro hh
      rw [hf.1]
      exact ih (hf.2 ▸ hh)
  | resizeEv nb =>
    unfold stepEv onResizeEvent
    dsimp only
    split_ifs with h1 h2 h3
    · exact ih
    · exact ih
    · exact ih
    · have hf := handleResize_frame d { s with winBounds := nb }
      intro hh
      rw [hf.1]
      exact ih (hf.2 ▸ hh)
  | opTimeout => exact ih
  | setAOT v =>
    unfold stepEv setAlwaysOnTopHandle
    dsimp only
    split_ifs <;> exact ih
  | settingsUpdate p => exact ih
  | destroy => exact ih

theorem dockPinned_inv (d : Display) (s : MainState) (h : Reachable d s) :
    s.dockMode = none → s.dockPinned = false := by
  induction h with
  | init x y loaded => intro _; rfl
  | step e hs ih => exact stepEv_pin d e _ ih

/-- C10: in every reachable state, no live session implies the pin is
off; `setDockPinned` forces the pin off and returns `false` when no
session is live; and `stopDocking` always resets the pin. -/
theorem pinned_only_while_docked :
    (∀ (d : Display) (s : MainState), Reachable d s → s.dockMode = none → s.dockPinned = false) ∧
    (∀ (v : Bool) (s : MainState), s.winAlive = true → s.dockMode = none →
      (setDockPinnedHandle v s).2 = false ∧ (setDockPinnedHandle v s).1.dockPinned = false) ∧
    (∀ s : MainState, (stopDocking s).dockPinned = false) := by
  refine ⟨fun d s h => dockPinned_inv d s h, ?_, fun s => rfl⟩
  intro v s ha hm
  constructor
  · unfold setDockPinnedHandle
    simp [ha, hm]
  · unfold setDockPinnedHandle
    simp [ha, hm]

/-- Witness for `pinned_only_while_docked` at the startup state. -/
theorem pinned_only_while_docked_witness :
    state0.dockMode = none ∧ state0.dockPinned = false ∧
    (setDockPinnedHandle true state0).2 = false :=
  ⟨rfl,
    pinned_only_while_docked.1 display0 state0 (Reachable.init 100 80 getDefaultSettings) rfl,
    (pinned_only_while_docked.2.1 true state0 rfl rfl).1⟩

end SideMarkdown
